import Mathlib

/-!
Verification of the build-hook scripts `Scripts/Pre-Compile.py` and
`Scripts/Post-Compile.py`.

The two scripts share one utility, `walkItems` (the spec's KeyValueFinder):
a depth-first search over a nested structure of mappings and sequences that
returns the value immediately following the first matched occurrence of a
needle, with the empty string as the not-found sentinel.

`Post-Compile.py` additionally defines `Copy_Binary`, the post-build hook:
it copies the produced binary to `FinalBIN` and appends a fingerprint
string in binary mode.  We model the filesystem explicitly as a state
(`FS`) and fallible filesystem operations as `Except`-valued state
transformers.
-/

set_option autoImplicit false

namespace OXRS

/-- A node of the build-configuration tree: a scalar string, an ordered
sequence, or a mapping with insertion-ordered string keys.  This is the
shape of the `CPPDEFINES` structure the scripts traverse. -/
inductive Node where
  | str : String → Node
  | list : List Node → Node
  | dict : List (String × Node) → Node
deriving Repr

/-- `result != ""` in the Python: the sentinel test.  Only the scalar `""`
counts as the sentinel; a mapping or sequence result always passes the
`!= ""` check. -/
def isSentinel : Node → Bool
  | Node.str s => s = ""
  | _ => false

mutual
/-- Embedding of `walkItems(haystack, needle)` from both scripts (the two
copies are textually identical).  A non-container haystack falls through to
the final `return ""`. -/
def walkItems : Node → String → Node
  | Node.str _, _ => Node.str ""
  | Node.dict kvs, needle => walkDict kvs needle false
  | Node.list xs, needle => walkList xs needle false

/-- The `for key, items in haystack.items()` loop of `walkItems`, with the
`nxt` flag made explicit.  `return key` returns the mapping key (a string);
a container value is recursed into before the key is ever compared with the
needle; a scalar value's key is compared with the needle and, on a match,
the next iteration returns the following key. -/
def walkDict : List (String × Node) → String → Bool → Node
  | [], _, _ => Node.str ""
  | (key, items) :: rest, needle, nxt =>
    if nxt then Node.str key
    else
      match items with
      | Node.dict d =>
        let result := walkItems (Node.dict d) needle
        if isSentinel result then walkDict rest needle nxt else result
      | Node.list l =>
        let result := walkItems (Node.list l) needle
        if isSentinel result then walkDict rest needle nxt else result
      | Node.str _ =>
        if key = needle then walkDict rest needle true
        else walkDict rest needle nxt

/-- The `for key in haystack` loop of `walkItems` over a sequence.  Here
`return key` returns the raw next element, which may itself be a container;
only scalar elements are compared with the needle. -/
def walkList : List Node → String → Bool → Node
  | [], _, _ => Node.str ""
  | key :: rest, needle, nxt =>
    if nxt then key
    else
      match key with
      | Node.dict d =>
        let result := walkItems (Node.dict d) needle
        if isSentinel result then walkList rest needle nxt else result
      | Node.list l =>
        let result := walkItems (Node.list l) needle
        if isSentinel result then walkList rest needle nxt else result
      | Node.str s =>
        if s = needle then walkList rest needle true
        else walkList rest needle nxt
end

mutual
/-- The needle occurs somewhere in the tree: as a scalar, as a mapping key,
as a sequence element, or anywhere inside a nested container. -/
def occursIn : Node → String → Bool
  | Node.str s, n => s = n
  | Node.list xs, n => occursInList xs n
  | Node.dict kvs, n => occursInDict kvs n

def occursInList : List Node → String → Bool
  | [], _ => false
  | x :: rest, n => occursIn x n || occursInList rest n

def occursInDict : List (String × Node) → String → Bool
  | [], _ => false
  | (k, v) :: rest, n => decide (k = n) || occursIn v n || occursInDict rest n
end

mutual
/-- The successors, in the depth-first order `walkItems` uses, of every
occurrence of the needle that the code can match: a scalar sequence element
equal to the needle (successor: the next element, if any), or a mapping key
equal to the needle whose value is a scalar (successor: the next key, if
any).  `none` records an occurrence that is the last entry of its
container. -/
def matchSuccs : Node → String → List (Option Node)
  | Node.str _, _ => []
  | Node.list xs, n => listSuccs xs n
  | Node.dict kvs, n => dictSuccs kvs n

def listSuccs : List Node → String → List (Option Node)
  | [], _ => []
  | x :: rest, n =>
    match x with
    | Node.dict d => matchSuccs (Node.dict d) n ++ listSuccs rest n
    | Node.list l => matchSuccs (Node.list l) n ++ listSuccs rest n
    | Node.str s =>
      if s = n then rest.head? :: listSuccs rest n
      else listSuccs rest n

def dictSuccs : List (String × Node) → String → List (Option Node)
  | [], _ => []
  | (key, items) :: rest, n =>
    match items with
    | Node.dict d => matchSuccs (Node.dict d) n ++ dictSuccs rest n
    | Node.list l => matchSuccs (Node.list l) n ++ dictSuccs rest n
    | Node.str _ =>
      if key = n then (rest.head?.map (fun kv => Node.str kv.1)) :: dictSuccs rest n
      else dictSuccs rest n
end

/-- The example configuration tree of the spec:
`{"CPPDEFINES": ["DeviceName","Widget","FlashSize","4"]}`. -/
def exTree : Node :=
  Node.dict [("CPPDEFINES",
    Node.list [Node.str "DeviceName", Node.str "Widget",
               Node.str "FlashSize", Node.str "4"])]

example : walkItems exTree "DeviceName" = Node.str "Widget" := by rfl
example : walkItems exTree "FlashSize" = Node.str "4" := by rfl
example : walkItems exTree "Missing" = Node.str "" := by rfl
example : matchSuccs exTree "DeviceName" = [some (Node.str "Widget")] := by rfl

mutual
/-- If every matchable occurrence of the needle is either last in its
container or followed by the empty string, the search returns the
sentinel: a `""` successor found in a nested branch fails the `!= ""`
check and is passed over. -/
theorem walkItems_degenerate (t : Node) (n : String)
    (h : ∀ w ∈ matchSuccs t n, w = none ∨ w = some (Node.str "")) :
    walkItems t n = Node.str "" := by
  match t with
  | Node.str s => rfl
  | Node.list xs => exact walkList_degenerate xs n h
  | Node.dict kvs => exact walkDict_degenerate kvs n h

theorem walkList_degenerate (xs : List Node) (n : String)
    (h : ∀ w ∈ listSuccs xs n, w = none ∨ w = some (Node.str "")) :
    walkList xs n false = Node.str "" := by
  match xs with
  | [] => rfl
  | x :: rest =>
    match x with
    | Node.dict d =>
      have hsub : walkItems (Node.dict d) n = Node.str "" :=
        walkItems_degenerate (Node.dict d) n (by
          intro w hw
          exact h w (by simp [listSuccs, hw]))
      have hrest : walkList rest n false = Node.str "" :=
        walkList_degenerate rest n (by
          intro w hw
          exact h w (by simp [listSuccs, hw]))
      simp [walkList, hsub, isSentinel, hrest]
    | Node.list l =>
      have hsub : walkItems (Node.list l) n = Node.str "" :=
        walkItems_degenerate (Node.list l) n (by
          intro w hw
          exact h w (by simp [listSuccs, hw]))
      have hrest : walkList rest n false = Node.str "" :=
        walkList_degenerate rest n (by
          intro w hw
          exact h w (by simp [listSuccs, hw]))
      simp [walkList, hsub, isSentinel, hrest]
    | Node.str s =>
      by_cases hs : s = n
      · have hhead := h rest.head? (by simp [listSuccs, hs])
        match rest, hhead with
        | [], _ => simp [walkList, hs]
        | y :: rest2, hhead =>
          simp only [List.head?] at hhead
          have hy : y = Node.str "" := by
            rcases hhead with h1 | h1
            · exact absurd h1 (by simp)
            · exact Option.some_injective _ h1
          simp [walkList, hs, hy]
      · have hrest : walkList rest n false = Node.str "" :=
          walkList_degenerate rest n (by
            intro w hw
            exact h w (by simp [listSuccs, hs, hw]))
        simp [walkList, hs, hrest]

theorem walkDict_degenerate (kvs : List (String × Node)) (n : String)
    (h : ∀ w ∈ dictSuccs kvs n, w = none ∨ w = some (Node.str "")) :
    walkDict kvs n false = Node.str "" := by
  match kvs with
  | [] => rfl
  | (key, items) :: rest =>
    match items with
    | Node.dict d =>
      have hsub : walkItems (Node.dict d) n = Node.str "" :=
        walkItems_degenerate (Node.dict d) n (by
          intro w hw
          exact h w (by simp [dictSuccs, hw]))
      have hrest : walkDict rest n false = Node.str "" :=
        walkDict_degenerate rest n (by
          intro w hw
          exact h w (by simp [dictSuccs, hw]))
      simp [walkDict, hsub, isSentinel, hrest]
    | Node.list l =>
      have hsub : walkItems (Node.list l) n = Node.str "" :=
        walkItems_degenerate (Node.list l) n (by
          intro w hw
          exact h w (by simp [dictSuccs, hw]))
      have hrest : walkDict rest n false = Node.str "" :=
        walkDict_degenerate rest n (by
          intro w hw
          exact h w (by simp [dictSuccs, hw]))
      simp [walkDict, hsub, isSentinel, hrest]
    | Node.str sv =>
      by_cases hs : key = n
      · have hhead := h (rest.head?.map (fun kv => Node.str kv.1))
          (by simp [dictSuccs, hs])
        match rest, hhead with
        | [], _ => simp [walkDict, hs]
        | (k2, v2) :: rest2, hhead =>
          simp only [List.head?, Option.map_some] at hhead
          have hk2 : k2 = "" := by
            rcases hhead with h1 | h1
            · exact absurd h1 (by simp)
            · have := Option.some_injective _ h1
              exact Node.str.inj this
          simp [walkDict, hs, hk2]
      · have hrest : walkDict rest n false = Node.str "" :=
          walkDict_degenerate rest n (by
            intro w hw
            exact h w (by simp [dictSuccs, hs, hw]))
        simp [walkDict, hs, hrest]
end

mutual
/-- If the first matchable occurrence of the needle (in the code's
depth-first order) has a successor `w` that is not the `""` sentinel, the
search returns exactly `w`. -/
theorem walkItems_first (t : Node) (n : String) (w : Node) (ws : List (Option Node))
    (hm : matchSuccs t n = some w :: ws) (hw : isSentinel w = false) :
    walkItems t n = w := by
  match t with
  | Node.str s => simp [matchSuccs] at hm
  | Node.list xs => exact walkList_first xs n w ws hm hw
  | Node.dict kvs => exact walkDict_first kvs n w ws hm hw

theorem walkList_first (xs : List Node) (n : String) (w : Node) (ws : List (Option Node))
    (hm : listSuccs xs n = some w :: ws) (hw : isSentinel w = false) :
    walkList xs n false = w := by
  match xs with
  | [] => simp [listSuccs] at hm
  | x :: rest =>
    match x with
    | Node.dict d =>
      rw [listSuccs] at hm
      cases hcase : matchSuccs (Node.dict d) n with
      | nil =>
        rw [hcase, List.nil_append] at hm
        have hsub : walkItems (Node.dict d) n = Node.str "" :=
          walkItems_degenerate (Node.dict d) n (by simp [hcase])
        have hrest := walkList_first rest n w ws hm hw
        simp [walkList, hsub, isSentinel, hrest]
      | cons w0 r0 =>
        rw [hcase, List.cons_append] at hm
        have hw0 : w0 = some w := (List.cons.inj hm).1
        have hsub : walkItems (Node.dict d) n = w :=
          walkItems_first (Node.dict d) n w r0
            (by rw [hcase, hw0]) hw
        simp [walkList, hsub, hw]
    | Node.list l =>
      rw [listSuccs] at hm
      cases hcase : matchSuccs (Node.list l) n with
      | nil =>
        rw [hcase, List.nil_append] at hm
        have hsub : walkItems (Node.list l) n = Node.str "" :=
          walkItems_degenerate (Node.list l) n (by simp [hcase])
        have hrest := walkList_first rest n w ws hm hw
        simp [walkList, hsub, isSentinel, hrest]
      | cons w0 r0 =>
        rw [hcase, List.cons_append] at hm
        have hw0 : w0 = some w := (List.cons.inj hm).1
        have hsub : walkItems (Node.list l) n = w :=
          walkItems_first (Node.list l) n w r0
            (by rw [hcase, hw0]) hw
        simp [walkList, hsub, hw]
    | Node.str s =>
      by_cases hs : s = n
      · rw [listSuccs, if_pos hs] at hm
        have hhead : rest.head? = some w := (List.cons.inj hm).1
        match rest, hhead with
        | y :: rest2, hhead =>
          have hy : y = w := by simpa using hhead
          simp [walkList, hs, hy]
      · rw [listSuccs, if_neg hs] at hm
        have hrest := walkList_first rest n w ws hm hw
        simp [walkList, hs, hrest]

theorem walkDict_first (kvs : List (String × Node)) (n : String) (w : Node)
    (ws : List (Option Node))
    (hm : dictSuccs kvs n = some w :: ws) (hw : isSentinel w = false) :
    walkDict kvs n false = w := by
  match kvs with
  | [] => simp [dictSuccs] at hm
  | (key, items) :: rest =>
    match items with
    | Node.dict d =>
      rw [dictSuccs] at hm
      cases hcase : matchSuccs (Node.dict d) n with
      | nil =>
        rw [hcase, List.nil_append] at hm
        have hsub : walkItems (Node.dict d) n = Node.str "" :=
          walkItems_degenerate (Node.dict d) n (by simp [hcase])
        have hrest := walkDict_first rest n w ws hm hw
        simp [walkDict, hsub, isSentinel, hrest]
      | cons w0 r0 =>
        rw [hcase, List.cons_append] at hm
        have hw0 : w0 = some w := (List.cons.inj hm).1
        have hsub : walkItems (Node.dict d) n = w :=
          walkItems_first (Node.dict d) n w r0
            (by rw [hcase, hw0]) hw
        simp [walkDict, hsub, hw]
    | Node.list l =>
      rw [dictSuccs] at hm
      cases hcase : matchSuccs (Node.list l) n with
      | nil =>
        rw [hcase, List.nil_append] at hm
        have hsub : walkItems (Node.list l) n = Node.str "" :=
          walkItems_degenerate (Node.list l) n (by simp [hcase])
        have hrest := walkDict_first rest n w ws hm hw
        simp [walkDict, hsub, isSentinel, hrest]
      | cons w0 r0 =>
        rw [hcase, List.cons_append] at hm
        have hw0 : w0 = some w := (List.cons.inj hm).1
        have hsub : walkItems (Node.list l) n = w :=
          walkItems_first (Node.list l) n w r0
            (by rw [hcase, hw0]) hw
        simp [walkDict, hsub, hw]
    | Node.str sv =>
      by_cases hs : key = n
      · rw [dictSuccs, if_pos hs] at hm
        have hhead : rest.head?.map (fun kv => Node.str kv.1) = some w :=
          (List.cons.inj hm).1
        match rest, hhead with
        | (k2, v2) :: rest2, hhead =>
          have hk2 : Node.str k2 = w := by simpa using hhead
          simp [walkDict, hs, hk2]
      · rw [dictSuccs, if_neg hs] at hm
        have hrest := walkDict_first rest n w ws hm hw
        simp [walkDict, hs, hrest]
end

mutual
/-- A needle that occurs nowhere in the tree has no matchable occurrence,
so its successor list is empty. -/
theorem matchSuccs_eq_nil (t : Node) (n : String) (h : occursIn t n = false) :
    matchSuccs t n = [] := by
  match t with
  | Node.str s => rfl
  | Node.list xs => exact listSuccs_eq_nil xs n h
  | Node.dict kvs => exact dictSuccs_eq_nil kvs n h

theorem listSuccs_eq_nil (xs : List Node) (n : String)
    (h : occursInList xs n = false) :
    listSuccs xs n = [] := by
  match xs with
  | [] => rfl
  | x :: rest =>
    rw [occursInList, Bool.or_eq_false_iff] at h
    obtain ⟨hx, hrest⟩ := h
    have hr := listSuccs_eq_nil rest n hrest
    match x with
    | Node.dict d =>
      have hd := matchSuccs_eq_nil (Node.dict d) n hx
      simp [listSuccs, hd, hr]
    | Node.list l =>
      have hl := matchSuccs_eq_nil (Node.list l) n hx
      simp [listSuccs, hl, hr]
    | Node.str s =>
      have hs : s ≠ n := by simpa [occursIn] using hx
      simp [listSuccs, hs, hr]

theorem dictSuccs_eq_nil (kvs : List (String × Node)) (n : String)
    (h : occursInDict kvs n = false) :
    dictSuccs kvs n = [] := by
  match kvs with
  | [] => rfl
  | (k, v) :: rest =>
    rw [occursInDict, Bool.or_eq_false_iff, Bool.or_eq_false_iff] at h
    obtain ⟨⟨hk, hv⟩, hrest⟩ := h
    have hkn : k ≠ n := by simpa using hk
    have hr := dictSuccs_eq_nil rest n hrest
    match v with
    | Node.dict d =>
      have hd := matchSuccs_eq_nil (Node.dict d) n hv
      simp [dictSuccs, hd, hr]
    | Node.list l =>
      have hl := matchSuccs_eq_nil (Node.list l) n hv
      simp [dictSuccs, hl, hr]
    | Node.str s =>
      simp [dictSuccs, hkn, hr]
end

/-! ## The filesystem model for `Copy_Binary`

`Post-Compile.py` interacts with the filesystem through `shutil.copyfile`
and `open(FinalBIN, 'ab')` / `write` / `close`.  We model the filesystem
as an explicit state: a set of existing directories and a map from paths
to byte contents.  An I/O fault (missing source, missing destination
directory) is an `Except.error`, matching the script's unhandled-exception
behavior. -/

/-- Filesystem state: existing directories and files (path with byte
contents).  Bytes are modelled as `Nat` values below 256. -/
structure FS where
  dirs : List String
  files : List (String × List Nat)
deriving Repr, DecidableEq

/-- Contents of the file at path `p`, if it exists. -/
def lookupFile (fs : FS) (p : String) : Option (List Nat) :=
  match fs.files.find? (fun f => f.1 = p) with
  | some f => some f.2
  | none => none

/-- Replace the contents of `p` in a file listing, or create the file at
the end if it is absent. -/
def writeList (files : List (String × List Nat)) (p : String) (bytes : List Nat) :
    List (String × List Nat) :=
  match files with
  | [] => [(p, bytes)]
  | f :: rest =>
    if f.1 = p then (p, bytes) :: rest
    else f :: writeList rest p bytes

/-- Write `bytes` to the file at `p`, creating or truncating it. -/
def writeFile (fs : FS) (p : String) (bytes : List Nat) : FS :=
  { fs with files := writeList fs.files p bytes }

/-- The characters before the last `/` of a path (empty if there is no
`/`): a character is kept exactly when a `/` still follows it. -/
def dirnameChars : List Char → List Char
  | [] => []
  | c :: rest => if ('/' : Char) ∈ rest then c :: dirnameChars rest else []

/-- The parent directory of a path: everything before the last `/`, or
`""` for a bare, cwd-relative filename. -/
def dirOf (p : String) : String :=
  String.mk (dirnameChars p.data)

/-- `shutil.copyfile(src, dst)`: read all bytes of `src` and write them to
`dst` (truncating an existing `dst`).  It fails if `src` does not exist or
if `dst`'s parent directory does not exist; it never creates directories. -/
def copyfile (fs : FS) (src dst : String) : Except String FS :=
  match lookupFile fs src with
  | none => Except.error "FileNotFoundError: no such file"
  | some bytes =>
    if dirOf dst ∈ fs.dirs then Except.ok (writeFile fs dst bytes)
    else Except.error "FileNotFoundError: no such directory"

/-- `open(p, 'ab')` + `write(bytes)` + `close()`: append `bytes` to the
file at `p`, creating the file (but not its parent directory) if absent. -/
def appendFile (fs : FS) (p : String) (bytes : List Nat) : Except String FS :=
  if dirOf p ∈ fs.dirs then
    Except.ok (writeFile fs p ((lookupFile fs p).getD [] ++ bytes))
  else Except.error "FileNotFoundError: no such directory"

/-- The UTF-8 encoding of one code point, as `Nat` bytes. -/
def utf8Char (c : Char) : List Nat :=
  let n := c.toNat
  if n < 0x80 then [n]
  else if n < 0x800 then
    [0xC0 + n / 0x40, 0x80 + n % 0x40]
  else if n < 0x10000 then
    [0xE0 + n / 0x1000, 0x80 + n / 0x40 % 0x40, 0x80 + n % 0x40]
  else
    [0xF0 + n / 0x40000, 0x80 + n / 0x1000 % 0x40, 0x80 + n / 0x40 % 0x40,
     0x80 + n % 0x40]

/-- The UTF-8 bytes of a string, as `Nat` values (Python's
`str.encode()`). -/
def utf8Bytes (s : String) : List Nat :=
  (s.data.map utf8Char).flatten

/-- `FinalBIN = "Binaries/" + MyName + " (" + MyBuild + " _ " + MyVersion + ").bin"`. -/
def FinalBIN (myName myBuild myVersion : String) : String :=
  "Binaries/" ++ myName ++ " (" ++ myBuild ++ " _ " ++ myVersion ++ ").bin"

/-- `FingerPrint = "[" + MyName + "|" + str(UNIXtime) + "|" + MyVersion + "|" + MyFlash + "MB]"`. -/
def FingerPrint (myName : String) (unixTime : Nat) (myVersion myFlash : String) :
    String :=
  "[" ++ myName ++ "|" ++ toString unixTime ++ "|" ++ myVersion ++ "|" ++
    myFlash ++ "MB]"

/-- Embedding of `Copy_Binary`: copy the produced binary at `target` to
`FinalBIN`, then append the UTF-8 encoded fingerprint in binary append
mode.  The build descriptor (`myName`, `myBuild`, `myVersion`, `myFlash`,
`unixTime`) is the data extracted at script load via `walkItems` and the
environment.  The `print` calls have no filesystem effect and are not
modelled. -/
def Copy_Binary (fs : FS) (target myName myBuild myVersion myFlash : String)
    (unixTime : Nat) : Except String FS := do
  let dst := FinalBIN myName myBuild myVersion
  let fs1 ← copyfile fs target dst
  appendFile fs1 dst (utf8Bytes (FingerPrint myName unixTime myVersion myFlash))

example : utf8Bytes "ab" = [97, 98] := by rfl
example : dirOf (FinalBIN "Widget" "env_a" "1.2.3") = "Binaries" := by rfl

/-! ### Association-list lemmas about the file store -/

theorem find_writeList_self (files : List (String × List Nat)) (p : String)
    (b : List Nat) :
    (writeList files p b).find? (fun f => f.1 = p) = some (p, b) := by
  induction files with
  | nil => simp [writeList]
  | cons f rest ih =>
    by_cases h : f.1 = p
    · simp [writeList, h]
    · simp [writeList, h, ih]

theorem find_writeList_ne (files : List (String × List Nat)) (p q : String)
    (b : List Nat) (h : q ≠ p) :
    (writeList files p b).find? (fun f => f.1 = q)
      = files.find? (fun f => f.1 = q) := by
  have hpq : ¬ p = q := fun e => h e.symm
  induction files with
  | nil => simp [writeList, hpq]
  | cons f rest ih =>
    by_cases hf : f.1 = p
    · have hfq : ¬ f.1 = q := fun hq => h (hq ▸ hf ▸ rfl)
      simp [writeList, hf, hpq, hfq]
    · by_cases hfq : f.1 = q
      · simp [writeList, hf, hfq, h]
      · simp [writeList, hf, hfq, ih]

theorem writeList_writeList (files : List (String × List Nat)) (p : String)
    (b c : List Nat) :
    writeList (writeList files p b) p c = writeList files p c := by
  induction files with
  | nil => simp [writeList]
  | cons f rest ih =>
    by_cases h : f.1 = p
    · simp [writeList, h]
    · simp [writeList, h, ih]

theorem writeList_eq_self (files : List (String × List Nat)) (p : String)
    (b : List Nat)
    (h : files.find? (fun f => f.1 = p) = some (p, b)) :
    writeList files p b = files := by
  induction files with
  | nil => simp at h
  | cons f rest ih =>
    by_cases hf : f.1 = p
    · rw [List.find?_cons_of_pos _ (by simpa using hf)] at h
      have hfb : f = (p, b) := by simpa using h
      simp [writeList, hf, hfb]
    · rw [List.find?_cons_of_neg _ (by simpa using hf)] at h
      simp [writeList, hf, ih h]

theorem lookupFile_writeFile_self (fs : FS) (p : String) (b : List Nat) :
    lookupFile (writeFile fs p b) p = some b := by
  simp [lookupFile, writeFile, find_writeList_self]

theorem lookupFile_writeFile_ne (fs : FS) (p q : String) (b : List Nat)
    (h : q ≠ p) :
    lookupFile (writeFile fs p b) q = lookupFile fs q := by
  simp [lookupFile, writeFile, find_writeList_ne fs.files p q b h]

theorem dirs_writeFile (fs : FS) (p : String) (b : List Nat) :
    (writeFile fs p b).dirs = fs.dirs := rfl

theorem writeFile_writeFile (fs : FS) (p : String) (b c : List Nat) :
    writeFile (writeFile fs p b) p c = writeFile fs p c := by
  simp [writeFile, writeList_writeList]

theorem writeFile_eq_self (fs : FS) (p : String) (b : List Nat)
    (h : lookupFile fs p = some b) : writeFile fs p b = fs := by
  have hfind : fs.files.find? (fun f => f.1 = p) = some (p, b) := by
    unfold lookupFile at h
    cases hcase : fs.files.find? (fun f => f.1 = p) with
    | none => rw [hcase] at h; simp at h
    | some f =>
      rw [hcase] at h
      have hp : f.1 = p := by simpa using List.find?_some hcase
      have hb : f.2 = b := by simpa using h
      obtain ⟨fk, fv⟩ := f
      simp_all
  cases fs with
  | mk dirs files =>
    simp only [writeFile]
    exact congrArg (FS.mk dirs) (writeList_eq_self files p b hfind)

/-! ### Behavior of `Copy_Binary` on a filesystem where it succeeds -/

/-- A successful run of `Copy_Binary` produces exactly: the old filesystem
with the destination file overwritten by the source bytes followed by the
UTF-8 fingerprint. -/
theorem Copy_Binary_ok (fs : FS) (target myName myBuild myVersion myFlash : String)
    (unixTime : Nat) (src : List Nat)
    (hsrc : lookupFile fs target = some src)
    (hdir : dirOf (FinalBIN myName myBuild myVersion) ∈ fs.dirs) :
    Copy_Binary fs target myName myBuild myVersion myFlash unixTime
      = Except.ok (writeFile fs (FinalBIN myName myBuild myVersion)
          (src ++ utf8Bytes (FingerPrint myName unixTime myVersion myFlash))) := by
  have h1 : copyfile fs target (FinalBIN myName myBuild myVersion)
      = Except.ok (writeFile fs (FinalBIN myName myBuild myVersion) src) := by
    simp [copyfile, hsrc, hdir]
  have h2 : appendFile (writeFile fs (FinalBIN myName myBuild myVersion) src)
        (FinalBIN myName myBuild myVersion)
        (utf8Bytes (FingerPrint myName unixTime myVersion myFlash))
      = Except.ok (writeFile fs (FinalBIN myName myBuild myVersion)
          (src ++ utf8Bytes (FingerPrint myName unixTime myVersion myFlash))) := by
    simp [appendFile, dirs_writeFile, hdir, lookupFile_writeFile_self,
      writeFile_writeFile]
  simp [Copy_Binary, h1, h2, Bind.bind, Except.bind]

/-- A run of `Copy_Binary` can only succeed if the destination directory
already exists, and it never changes the set of directories: the script
contains no `mkdir`. -/
theorem Copy_Binary_dirs (fs fs2 : FS)
    (target myName myBuild myVersion myFlash : String) (unixTime : Nat)
    (h : Copy_Binary fs target myName myBuild myVersion myFlash unixTime
          = Except.ok fs2) :
    fs2.dirs = fs.dirs ∧ dirOf (FinalBIN myName myBuild myVersion) ∈ fs.dirs := by
  cases hsrc : lookupFile fs target with
  | none =>
    have herr : Copy_Binary fs target myName myBuild myVersion myFlash unixTime
        = Except.error "FileNotFoundError: no such file" := by
      simp [Copy_Binary, copyfile, hsrc, Bind.bind, Except.bind]
    rw [herr] at h
    exact absurd h (by simp)
  | some src =>
    by_cases hdir : dirOf (FinalBIN myName myBuild myVersion) ∈ fs.dirs
    · rw [Copy_Binary_ok fs target myName myBuild myVersion myFlash unixTime src
        hsrc hdir] at h
      refine ⟨?_, hdir⟩
      rw [← Except.ok.inj h, dirs_writeFile]
    · have herr : Copy_Binary fs target myName myBuild myVersion myFlash unixTime
          = Except.error "FileNotFoundError: no such directory" := by
        simp [Copy_Binary, copyfile, hsrc, hdir, Bind.bind, Except.bind]
      rw [herr] at h
      exact absurd h (by simp)

/-- A needle that occurs nowhere in the tree makes `walkItems` return the
`""` sentinel: no iteration can ever set `nxt`. -/
theorem walkItems_not_found (t : Node) (n : String) (h : occursIn t n = false) :
    walkItems t n = Node.str "" :=
  walkItems_degenerate t n (by rw [matchSuccs_eq_nil t n h]; simp)

/-- `isinstance(items, dict) or isinstance(items, list)`. -/
def isContainer : Node → Bool
  | Node.str _ => false
  | _ => true

/-- State-passing embedding of one call to `walkItems`: the function
receives the tree and returns its result together with the tree as left by
the call.  The Python body never assigns into `haystack` or any of its
elements, so the state it leaves is the tree it received. -/
def walkItemsCall (t : Node) (n : String) : Node × Node :=
  (walkItems t n, t)

/-! ## Concrete states used by witnesses and counterexamples -/

/-- A filesystem without the `Binaries` directory but with the produced
binary `fw.bin`. -/
def fsNoDir : FS := ⟨[], [("fw.bin", [0, 1, 2])]⟩

/-- A filesystem with the `Binaries` directory and the produced binary. -/
def fsStart : FS := ⟨["Binaries"], [("fw.bin", [0, 1, 2])]⟩

/-- `fsStart` after one successful run of `Copy_Binary` with name
`Widget`, build `env_a`, version `1.2.3`, flash `4`, unix time `5`. -/
def fsDone : FS :=
  ⟨["Binaries"],
   [("fw.bin", [0, 1, 2]),
    ("Binaries/Widget (env_a _ 1.2.3).bin",
     [0, 1, 2] ++ utf8Bytes (FingerPrint "Widget" 5 "1.2.3" "4"))]⟩

/-- A tree whose needle occurs in a nested container immediately followed
by the empty string. -/
def treeConflate : Node :=
  Node.list [Node.list [Node.str "Needle", Node.str ""], Node.str "X"]

/-- A tree not containing the needle at all. -/
def treeAbsent : Node := Node.list [Node.str "X"]

/-- Needle followed by `""` in a nested container, then again in the outer
scope followed by `"Y"`: the search passes over the `""` successor. -/
def treeContinue : Node :=
  Node.list [Node.list [Node.str "Needle", Node.str ""],
             Node.str "Needle", Node.str "Y"]

/-! ## Claims -/

/-- C1, counterexample: for name `Widget`, build `env_a`, version `1.2.3`
the code's destination path is not the claimed
`binaries/1.2.3/Widget_env_a_1.2.3.bin`. -/
theorem C1_counterexample :
    FinalBIN "Widget" "env_a" "1.2.3" ≠ "binaries/1.2.3/Widget_env_a_1.2.3.bin" := by
  decide

/-- C1 (amended): the destination path of the copied artifact is exactly
`Binaries/<name> (<build> _ <version>).bin` — one fixed `Binaries`
directory with no per-version subdirectory; for name `Widget`, build
`env_a`, version `1.2.3` it is `Binaries/Widget (env_a _ 1.2.3).bin`. -/
theorem C1_path :
    (∀ myName myBuild myVersion : String,
      FinalBIN myName myBuild myVersion
        = "Binaries/" ++ myName ++ " (" ++ myBuild ++ " _ " ++ myVersion ++ ").bin")
    ∧ FinalBIN "Widget" "env_a" "1.2.3" = "Binaries/Widget (env_a _ 1.2.3).bin" :=
  ⟨fun _ _ _ => rfl, by rfl⟩

/-- C2, counterexample: on a filesystem where the destination directory is
missing, `Copy_Binary` does not create it — the copy is attempted at once
and fails with an unhandled error. -/
theorem C2_counterexample :
    Copy_Binary fsNoDir "fw.bin" "Widget" "env_a" "1.2.3" "4" 5
      = Except.error "FileNotFoundError: no such directory" := by rfl

/-- C2 (amended): `Copy_Binary` contains no directory creation at all.  A
run can only succeed when the destination directory already exists, and a
successful run leaves the set of directories exactly unchanged. -/
theorem C2_no_mkdir (fs fs2 : FS)
    (target myName myBuild myVersion myFlash : String) (unixTime : Nat)
    (h : Copy_Binary fs target myName myBuild myVersion myFlash unixTime
          = Except.ok fs2) :
    fs2.dirs = fs.dirs ∧ dirOf (FinalBIN myName myBuild myVersion) ∈ fs.dirs :=
  Copy_Binary_dirs fs fs2 target myName myBuild myVersion myFlash unixTime h

/-- Witness for C2's amended theorem at a concrete successful run. -/
theorem C2_no_mkdir_witness :
    fsDone.dirs = fsStart.dirs
    ∧ dirOf (FinalBIN "Widget" "env_a" "1.2.3") ∈ fsStart.dirs :=
  C2_no_mkdir fsStart fsDone "fw.bin" "Widget" "env_a" "1.2.3" "4" 5 (by rfl)

/-- C3: after a successful run of the hook, the destination file holds the
source bytes followed by exactly the UTF-8 encoding of
`[<name>|<unixtime>|<version>|<flash>MB]`, its length is the source length
plus the fingerprint's byte length, and the source file is unchanged. -/
theorem C3_fingerprint (fs fs2 : FS)
    (target myName myBuild myVersion myFlash : String) (unixTime : Nat)
    (src : List Nat)
    (hsrc : lookupFile fs target = some src)
    (hne : target ≠ FinalBIN myName myBuild myVersion)
    (h : Copy_Binary fs target myName myBuild myVersion myFlash unixTime
          = Except.ok fs2) :
    lookupFile fs2 (FinalBIN myName myBuild myVersion)
      = some (src ++ utf8Bytes (FingerPrint myName unixTime myVersion myFlash))
    ∧ (lookupFile fs2 (FinalBIN myName myBuild myVersion)).map List.length
      = some (src.length
          + (utf8Bytes (FingerPrint myName unixTime myVersion myFlash)).length)
    ∧ lookupFile fs2 target = some src := by
  have hdir := (Copy_Binary_dirs fs fs2 target myName myBuild myVersion myFlash
    unixTime h).2
  rw [Copy_Binary_ok fs target myName myBuild myVersion myFlash unixTime src
    hsrc hdir] at h
  have hfs2 := Except.ok.inj h
  refine ⟨?_, ?_, ?_⟩
  · rw [← hfs2, lookupFile_writeFile_self]
  · rw [← hfs2, lookupFile_writeFile_self]; simp
  · rw [← hfs2, lookupFile_writeFile_ne _ _ _ _ hne, hsrc]

/-- Witness for C3 at a concrete run. -/
theorem C3_fingerprint_witness :
    lookupFile fsDone (FinalBIN "Widget" "env_a" "1.2.3")
      = some ([0, 1, 2] ++ utf8Bytes (FingerPrint "Widget" 5 "1.2.3" "4"))
    ∧ (lookupFile fsDone (FinalBIN "Widget" "env_a" "1.2.3")).map List.length
      = some (([0, 1, 2] : List Nat).length
          + (utf8Bytes (FingerPrint "Widget" 5 "1.2.3" "4")).length)
    ∧ lookupFile fsDone "fw.bin" = some [0, 1, 2] :=
  C3_fingerprint fsStart fsDone "fw.bin" "Widget" "env_a" "1.2.3" "4" 5 [0, 1, 2]
    (by rfl) (by decide) (by rfl)

/-- C4: whenever the needle has exactly one matchable occurrence and the
entry immediately following it in its own container is the scalar `v`
(next element of the sequence, or next key of the mapping), `walkItems`
returns `v`; and on the spec's example tree the three lookups return
`Widget`, `4` and `""`. -/
theorem C4_next_sibling :
    (∀ (t : Node) (n v : String),
        matchSuccs t n = [some (Node.str v)] → walkItems t n = Node.str v)
    ∧ walkItems exTree "DeviceName" = Node.str "Widget"
    ∧ walkItems exTree "FlashSize" = Node.str "4"
    ∧ walkItems exTree "Missing" = Node.str "" := by
  refine ⟨?_, rfl, rfl, rfl⟩
  intro t n v hm
  by_cases hv : v = ""
  · subst hv
    exact walkItems_degenerate t n (by rw [hm]; simp)
  · exact walkItems_first t n (Node.str v) [] hm (by simp [isSentinel, hv])

/-- Witness for C4's universal part at a concrete tree. -/
theorem C4_next_sibling_witness :
    walkItems (Node.list [Node.str "FIRMWAREVERSION", Node.str "1.2.3"])
      "FIRMWAREVERSION" = Node.str "1.2.3" :=
  C4_next_sibling.1 (Node.list [Node.str "FIRMWAREVERSION", Node.str "1.2.3"])
    "FIRMWAREVERSION" "1.2.3" (by rfl)

/-- C5: for every configuration tree and every needle that occurs nowhere
in it — not as a mapping key, not as a sequence element, not in any nested
container — `walkItems` returns the empty-string sentinel. -/
theorem C5_absent (t : Node) (n : String) (h : occursIn t n = false) :
    walkItems t n = Node.str "" :=
  walkItems_not_found t n h

/-- Witness for C5 on the spec's example tree with needle `Missing`. -/
theorem C5_absent_witness : walkItems exTree "Missing" = Node.str "" :=
  C5_absent exTree "Missing" (by rfl)

/-- C6: `walkItems` cannot distinguish a missing needle from a needle
whose following value is `""`: `treeConflate` contains the needle in a
nested container followed by `""`, `treeAbsent` does not contain it at
all, and both calls return the same `""`; on `treeContinue` the search
passes over the `""` successor and keeps searching. -/
theorem C6_conflation :
    occursIn treeConflate "Needle" = true
    ∧ matchSuccs treeConflate "Needle" = [some (Node.str "")]
    ∧ occursIn treeAbsent "Needle" = false
    ∧ walkItems treeConflate "Needle" = walkItems treeAbsent "Needle"
    ∧ walkItems treeConflate "Needle" = Node.str ""
    ∧ walkItems treeContinue "Needle" = Node.str "Y" :=
  ⟨rfl, rfl, rfl, rfl, rfl, rfl⟩

/-- C7: when the needle's only matchable occurrence is the last entry of
its (possibly nested) container, `walkItems` returns the empty sentinel
and never treats an element of an outer scope as the successor. -/
theorem C7_last_entry (t : Node) (n : String) (h : matchSuccs t n = [none]) :
    walkItems t n = Node.str "" :=
  walkItems_degenerate t n (by rw [h]; simp)

/-- Witness for C7: the needle is last in a nested sequence; the outer
element `X` that follows the nested container is not returned. -/
theorem C7_last_entry_witness :
    walkItems (Node.list [Node.list [Node.str "Needle"], Node.str "X"]) "Needle"
      = Node.str "" :=
  C7_last_entry (Node.list [Node.list [Node.str "Needle"], Node.str "X"])
    "Needle" (by rfl)

/-- C8: a second run of the hook on the unchanged source and configuration
reproduces the filesystem of the first run exactly — the destination is
overwritten with a fresh copy before the fingerprint is appended, so it
ends with exactly one trailer — and the directory set never changes. -/
theorem C8_idempotent (fs fs1 fs2 : FS)
    (target myName myBuild myVersion myFlash : String) (unixTime : Nat)
    (src : List Nat)
    (hsrc : lookupFile fs target = some src)
    (hne : target ≠ FinalBIN myName myBuild myVersion)
    (h1 : Copy_Binary fs target myName myBuild myVersion myFlash unixTime
          = Except.ok fs1)
    (h2 : Copy_Binary fs1 target myName myBuild myVersion myFlash unixTime
          = Except.ok fs2) :
    fs2 = fs1 ∧ fs1.dirs = fs.dirs
    ∧ lookupFile fs1 (FinalBIN myName myBuild myVersion)
        = some (src ++ utf8Bytes (FingerPrint myName unixTime myVersion myFlash)) := by
  have hdir := (Copy_Binary_dirs fs fs1 target myName myBuild myVersion myFlash
    unixTime h1).2
  rw [Copy_Binary_ok fs target myName myBuild myVersion myFlash unixTime src
    hsrc hdir] at h1
  have hfs1 := Except.ok.inj h1
  have hsrc1 : lookupFile fs1 target = some src := by
    rw [← hfs1, lookupFile_writeFile_ne _ _ _ _ hne, hsrc]
  have hdir1 : dirOf (FinalBIN myName myBuild myVersion) ∈ fs1.dirs := by
    rw [← hfs1, dirs_writeFile]; exact hdir
  rw [Copy_Binary_ok fs1 target myName myBuild myVersion myFlash unixTime src
    hsrc1 hdir1] at h2
  have hfs2 := Except.ok.inj h2
  have hlook1 : lookupFile fs1 (FinalBIN myName myBuild myVersion)
      = some (src ++ utf8Bytes (FingerPrint myName unixTime myVersion myFlash)) := by
    rw [← hfs1, lookupFile_writeFile_self]
  refine ⟨?_, ?_, hlook1⟩
  · rw [← hfs2, writeFile_eq_self fs1 _ _ hlook1]
  · rw [← hfs1, dirs_writeFile]

/-- Witness for C8 at a concrete double run. -/
theorem C8_idempotent_witness :
    fsDone = fsDone ∧ fsDone.dirs = fsStart.dirs
    ∧ lookupFile fsDone (FinalBIN "Widget" "env_a" "1.2.3")
        = some ([0, 1, 2] ++ utf8Bytes (FingerPrint "Widget" 5 "1.2.3" "4")) :=
  C8_idempotent fsStart fsDone fsDone "fw.bin" "Widget" "env_a" "1.2.3" "4" 5
    [0, 1, 2] (by rfl) (by decide) (by rfl) (by rfl)

/-- C9: `walkItems` is deterministic — equal `(tree, needle)` inputs give
equal results — and has no side effect on the tree: the state a call
leaves is structurally equal to the tree it received. -/
theorem C9_deterministic_pure (t1 t2 : Node) (n : String) (h : t1 = t2) :
    (walkItemsCall t1 n).1 = (walkItemsCall t2 n).1
    ∧ (walkItemsCall t1 n).2 = t1
    ∧ (walkItemsCall t2 n).2 = t2 := by
  subst h
  exact ⟨rfl, rfl, rfl⟩

/-- Witness for C9 on the example tree. -/
theorem C9_deterministic_pure_witness :
    (walkItemsCall exTree "DeviceName").1 = (walkItemsCall exTree "DeviceName").1
    ∧ (walkItemsCall exTree "DeviceName").2 = exTree
    ∧ (walkItemsCall exTree "DeviceName").2 = exTree :=
  C9_deterministic_pure exTree exTree "DeviceName" rfl

/-- C10: a mapping key equal to the needle whose value is itself a
container is never recognized as an occurrence: the code only recurses
into the value, so the entry is skipped entirely when that container does
not contain the needle, and if the needle occurs nowhere else the result
is the empty sentinel rather than the next key. -/
theorem C10_container_key (needle : String) (c : Node)
    (rest : List (String × Node))
    (hc : isContainer c = true) (hocc : occursIn c needle = false) :
    walkItems (Node.dict ((needle, c) :: rest)) needle
      = walkItems (Node.dict rest) needle
    ∧ (occursInDict rest needle = false →
        walkItems (Node.dict ((needle, c) :: rest)) needle = Node.str "") := by
  have hcw : walkItems c needle = Node.str "" :=
    walkItems_not_found c needle hocc
  have hmain : walkItems (Node.dict ((needle, c) :: rest)) needle
      = walkItems (Node.dict rest) needle := by
    cases c with
    | str s => simp [isContainer] at hc
    | dict d =>
      show walkDict ((needle, Node.dict d) :: rest) needle false
        = walkDict rest needle false
      simp [walkDict, hcw, isSentinel]
    | list l =>
      show walkDict ((needle, Node.list l) :: rest) needle false
        = walkDict rest needle false
      simp [walkDict, hcw, isSentinel]
  refine ⟨hmain, fun hrest => ?_⟩
  rw [hmain]
  exact walkItems_not_found (Node.dict rest) needle (by
    show occursInDict rest needle = false
    exact hrest)

/-- Witness for C10: the needle `DeviceName` maps to a container; the
result is `""`, not the following key `k2`. -/
theorem C10_container_key_witness :
    walkItems (Node.dict [("DeviceName", Node.list [Node.str "A"]),
                          ("k2", Node.str "v2")]) "DeviceName" = Node.str "" :=
  (C10_container_key "DeviceName" (Node.list [Node.str "A"])
    [("k2", Node.str "v2")] (by rfl) (by rfl)).2 (by rfl)

end OXRS
